import Mathlib

set_option autoImplicit false

/-!
Shallow embedding of the `wvm-irys-rust-sdk` client (`src/bundlr.rs`,
`src/transaction/mod.rs`), together with models of the pieces of the crate
that the shown sources reference but that are not among them
(`crate::currency::Currency`, `crate::transaction::poll::ConfirmationPoll`,
`crate::utils::check_and_return`, `crate::BundlrTx`), which are modelled
from the specification.

Conventions of the embedding:
* `u64`/`u128` values are modelled as `Nat` (the code performs no arithmetic
  on them, so no overflow reduction is needed).
* `f64` fee multipliers are modelled as `Rat`; the only operation the shown
  code performs on them is `Option.getD` with default `1.0`, which is exact.
* `num::BigUint` is modelled as `Nat`; `BigUint::from_str` is modelled on
  decimal-digit strings.
* HTTP I/O is modelled by an oracle structure `HttpClient` whose fields give,
  for each request the code can issue, the already-`check_and_return`ed
  result: `Except.ok` the parsed success payload, or `Except.error` for a
  non-success status / unparsable body (`check_and_return` is in the missing
  `crate::utils`; the spec fixes its contract: "non-2xx or malformed response
  yields `RelayError`").
* A Rust panic (`.expect(..)` / `panic!(..)`) is a distinguished outcome
  `Outcome.panic msg`, separate from the typed error outcome `Outcome.err`.
* `reqwest::Url::join` with the relative paths used here is modelled as
  string concatenation of the base url and the path suffix.
* Each method taking `&self` is embedded as a function that also returns the
  (necessarily unchanged) receiver, so that state preservation is a theorem
  about the embedding rather than a convention outside it.
-/

namespace WvmIrys

/-- Chain-side failure of a currency backend, per the spec's `ChainError`
taxonomy: transient "not found yet" versus fatal rejection. -/
inductive ChainError where
  | notFound : ChainError
  | fatal : String → ChainError
deriving DecidableEq

/-- The SDK's error type (`crate::error::BundlrError`, not among the shown
sources); modelled from the spec's error taxonomy: a relay-side failure
(non-success HTTP status or unparsable response) or a wrapped chain error. -/
inductive BundlrError where
  | relay : String → BundlrError
  | chain : ChainError → BundlrError
deriving DecidableEq

/-- Result of running a piece of the client: a value, a typed error, a Rust
panic carrying the panic message, or divergence (an infinite loop, reachable
through the confirmation poller's unbounded retry). -/
inductive Outcome (α : Type) where
  | ok : α → Outcome α
  | err : BundlrError → Outcome α
  | panic : String → Outcome α
  | diverge : Outcome α
deriving DecidableEq

/-- Struct `TxStatus` from `src/transaction/mod.rs`: point-in-time confirmation
snapshot (`confirmations: u64`, `height: u128`, `block_hash: String`). -/
structure TxStatus where
  confirmations : Nat
  height : Nat
  block_hash : String
deriving DecidableEq

/-- Struct `Tx` from `src/transaction/mod.rs`: a submitted chain transaction. -/
structure Tx where
  id : String
  «from» : String
  «to» : String
  amount : Nat
  fee : Nat
  block_height : Nat
  pending : Bool
  confirmed : Bool
deriving DecidableEq

/-- The transaction value produced by a currency backend's `create_tx` /
`send_tx`. Modelled from the spec (the `crate::currency` module is not among
the shown sources) and from its use in `src/bundlr.rs`, which reads the field
`tx_id` of `send_tx`'s result (`tx_res.tx_id`). -/
structure CurrencyTx where
  tx_id : String
deriving DecidableEq

/-- Modelled from the spec: the pluggable `Currency` backend trait
(`crate::currency::Currency` is not among the shown sources). Its capability
set is fixed by spec §4.1: `get_type`, `needs_fee`, `get_fee`, `create_tx`,
`send_tx`, `get_tx_status`, `get_signer`, plus the per-backend minimum
confirmation count. `get_tx_status` is indexed by the transaction id and by
the poll attempt number, so that one backend value describes the whole
status sequence a poll loop observes; `get_signer` is the capability to sign
byte payloads. -/
structure Currency where
  get_type : String
  needs_fee : Bool
  get_fee : Nat → String → Rat → Nat
  create_tx : Nat → String → Nat → CurrencyTx
  send_tx : CurrencyTx → Except ChainError CurrencyTx
  get_tx_status : String → Nat → Except ChainError TxStatus
  get_signer : List Nat → List Nat
  min_confirmations : Nat

/-- Struct `PubInfo` from `src/bundlr.rs` (`version`, `gateway`,
`addresses: HashMap<String, String>`); the hash map is embedded as an
association list queried with `List.lookup`. -/
structure PubInfo where
  version : String
  gateway : String
  addresses : List (String × String)
deriving DecidableEq

/-- Struct `BalanceResData` from `src/bundlr.rs`: the relay's balance response,
a decimal string. -/
structure BalanceResData where
  balance : String
deriving DecidableEq

/-- Struct `FundBody` from `src/bundlr.rs`: the (serde-`Serialize`) body type for
the funding notification, a single string field `tx_id`. The shown `fund`
never uses it. -/
structure FundBody where
  tx_id : String
deriving DecidableEq

/-- Modelled from the spec: the HTTP transport together with
`crate::utils::check_and_return` (not among the shown sources), as an oracle
giving each request's parsed result. Field by field: the `GET /info`
response parsed as `PubInfo`; the `GET account/balance/{chain}?address=`
response parsed as `BalanceResData`; the `POST tx/{chain}` (binary body)
response parsed as a JSON value (kept as its string rendering); and the
`POST account/balance/{chain}` response parsed as `String`. An
`Except.error` models a non-success status or an unparsable body. -/
structure HttpClient where
  get_info : String → Except BundlrError PubInfo
  get_balance_resp : String → String → Except BundlrError BalanceResData
  post_tx : String → List Nat → Except BundlrError String
  post_balance : String → String → Except BundlrError String

/-- Struct `Tag` from `crate::tags` (not among the shown sources): a name/value
string pair, per the spec's "ordered sequence of (name, value) string
pairs". -/
structure Tag where
  name : String
  value : String
deriving DecidableEq

/-- Modelled from the spec: `BundlrTx` (crate root, not among the shown
sources) — raw payload bytes, ordered tag sequence, and a signature
produced by the backend's signer over the tag-and-payload bytes. -/
structure BundlrTx where
  data : List Nat
  tags : List Tag
  signature : List Nat
deriving DecidableEq

/-- Byte encoding of a tag sequence used as signing input; order-preserving.
Modelled from the spec: tag order "participates in the signed payload". -/
def encodeTags (tags : List Tag) : List Nat :=
  tags.flatMap fun t =>
    (t.name.data.map Char.toNat) ++ (t.value.data.map Char.toNat)

/-- Modelled from the spec: `BundlrTx::create_with_tags` — the pure builder
of a signed bundle transaction from payload bytes, tags and a signer. -/
def BundlrTx.create_with_tags (data : List Nat) (tags : List Tag)
    (signer : List Nat → List Nat) : BundlrTx :=
  { data := data, tags := tags, signature := signer (encodeTags tags ++ data) }

/-- Modelled from the spec: `BundlrTx::into_inner` — serialization of the
bundle to its binary wire form (consumed by submission). -/
def BundlrTx.into_inner (tx : BundlrTx) : List Nat :=
  tx.signature ++ encodeTags tx.tags ++ tx.data

/-- The `Bundlr` client struct from `src/bundlr.rs`: base url, currency
backend reference, HTTP client, and the `PubInfo` fetched at construction. -/
structure Bundlr where
  url : String
  currency : Currency
  client : HttpClient
  pub_info : PubInfo

/-- ASCII lowercasing of one character, modelling what Rust's
`str::to_lowercase` does on the ASCII chain-type identifiers this SDK uses
(`'A'..='Z'` map to `'a'..='z'`, everything else unchanged). -/
def toLowerAsciiChar (c : Char) : Char :=
  if 65 ≤ c.toNat ∧ c.toNat ≤ 90 then Char.ofNat (c.toNat + 32) else c

/-- Rust `String::to_lowercase` (ASCII fragment), applied character-wise. -/
def lowercase_ascii (s : String) : String :=
  String.mk (s.data.map toLowerAsciiChar)

/-- Observable steps of the client's workflows, recorded in order as a
trace. `confirmed` records the poll attempt at which the confirmation
poller returned; `notifyRelay` records the final relay-notification POST
with its url and body. -/
inductive Event where
  | fetchInfo : Event
  | lookupAddress : String → Event
  | getFee : Nat → String → Rat → Event
  | createTx : Nat → String → Nat → Event
  | sendTx : CurrencyTx → Event
  | confirmed : String → Nat → Event
  | notifyRelay : String → String → Event
deriving DecidableEq

/-- Modelled from the spec: `ConfirmationPoll::await_confirmation`
(`src/transaction/poll.rs` is not among the shown sources). Spec §4.2:
repeat \x7b query `get_tx_status`; if confirmations ≥ the backend's required
threshold, return success; if the query fails with a fatal chain error, stop
and signal failure; else sleep and repeat \x7d — with no timeout of its own.
The embedding indexes poll attempts by a counter and bounds the loop by
`fuel`: `none` means the loop has not returned within `fuel` attempts
(modelling the spec's indefinite loop), `some (.ok i)` means confirmation
was observed at attempt `i`, and `some (.error e)` a fatal failure. -/
def await_confirmation (tx_id : String) (c : Currency) :
    Nat → Nat → Option (Except ChainError Nat)
  | 0, _ => none
  | fuel + 1, i =>
    match c.get_tx_status tx_id i with
    | .error .notFound => await_confirmation tx_id c fuel (i + 1)
    | .error (.fatal m) => some (.error (.fatal m))
    | .ok st =>
      if c.min_confirmations ≤ st.confirmations then some (.ok i)
      else await_confirmation tx_id c fuel (i + 1)

/-- Method `Bundlr::get_pub_info` from `src/bundlr.rs`: `GET {url}info`, parsed as
`PubInfo` by `check_and_return`. -/
def Bundlr.get_pub_info (client : HttpClient) (url : String) :
    Except BundlrError PubInfo :=
  client.get_info (url ++ "info")

/-- Constructor `Bundlr::new` from `src/bundlr.rs`: fetch `PubInfo` once; on failure,
`unwrap_or_else(|_| panic!(..))` aborts with a panic, so no client value is
produced. Returns the trace of info fetches next to the outcome. -/
def Bundlr.new (client : HttpClient) (url : String) (currency : Currency) :
    List Event × Outcome Bundlr :=
  ([Event.fetchInfo],
    match Bundlr.get_pub_info client url with
    | .ok pub_info =>
        .ok { url := url, currency := currency, client := client,
              pub_info := pub_info }
    | .error _ =>
        .panic ("Could not fetch public info from url: " ++ url))

/-- Method `Bundlr::create_transaction_with_tags` from `src/bundlr.rs`. -/
def Bundlr.create_transaction_with_tags (b : Bundlr) (data : List Nat)
    (tags : List Tag) : Bundlr × BundlrTx :=
  (b, BundlrTx.create_with_tags data tags b.currency.get_signer)

/-- Method `Bundlr::send_transaction` from `src/bundlr.rs`: serialize the bundle
(`into_inner`) and `POST {url}tx/{currency.get_type()}` with the bytes. -/
def Bundlr.send_transaction (b : Bundlr) (tx : BundlrTx) :
    Bundlr × Except BundlrError String :=
  (b, b.client.post_tx (b.url ++ "tx/" ++ b.currency.get_type) tx.into_inner)

/-- Parsing by `num::BigUint`'s `FromStr` on decimal strings: a non-empty all-digit
string parses to its base-10 value, anything else fails. -/
def biguint_from_str (s : String) : Option Nat :=
  if s.data ≠ [] ∧ s.data.all (fun c => c.isDigit) then
    some (s.data.foldl (fun a c => 10 * a + (c.toNat - 48)) 0)
  else
    none

/-- Method `Bundlr::get_balance_public` from `src/bundlr.rs`:
`GET {url}account/balance/{currency.get_type()}?address=..`, parse the body
as `BalanceResData`, then `BigUint::from_str(&d.balance).expect(..)` — a
parse failure of the balance string is a panic, not a typed error. -/
def Bundlr.get_balance_public (client : HttpClient) (url : String)
    (currency : Currency) (address : String) : Outcome Nat :=
  match client.get_balance_resp
      (url ++ "account/balance/" ++ currency.get_type) address with
  | .error e => .err e
  | .ok d =>
    match biguint_from_str d.balance with
    | some n => .ok n
    | none => .panic "Error converting from u128 to BigUint"

/-- Method `Bundlr::get_balance` from `src/bundlr.rs`: delegates to
`get_balance_public` with the client's own url, currency and HTTP client. -/
def Bundlr.get_balance (b : Bundlr) (address : String) :
    Bundlr × Outcome Nat :=
  (b, Bundlr.get_balance_public b.client b.url b.currency address)

/-- The body string `fund` builds for the relay notification:
`format!("\x7b\"tx_id\":\x7d", &tx_res.tx_id)` interpolates the transaction id
with no surrounding quotes. -/
def fund_notify_body (tx_id : String) : String :=
  "\x7b\"tx_id\":" ++ tx_id ++ "\x7d"

/-- What serde would produce for `FundBody \x7b tx_id \x7d`: the id as a JSON
string, quoted. (The shown `fund` does not use this.) -/
def FundBody.serialize (f : FundBody) : String :=
  "\x7b\"tx_id\":\"" ++ f.tx_id ++ "\"\x7d"

/-- The fee `fund` computes (line `let fee: u64 = match self.currency.needs_fee()`):
`get_fee(amount, to, multiplier)` when `needs_fee()`, else `Zero::zero()`. -/
def fund_fee (c : Currency) (amount : Nat) («to» : String) (m : Rat) : Nat :=
  if c.needs_fee then c.get_fee amount «to» m else 0

/-- The funding transaction `fund` builds with `create_tx`. -/
def fund_tx (c : Currency) (amount : Nat) («to» : String) (m : Rat) :
    CurrencyTx :=
  c.create_tx amount «to» (fund_fee c amount «to» m)

/-- The trace of `fund`'s steps up to and including the `send_tx` call
(shared by every branch in which the address lookup succeeded). -/
def fund_pre_events (c : Currency) (key : String) (amount : Nat)
    («to» : String) (m : Rat) : List Event :=
  Event.lookupAddress key ::
    ((if c.needs_fee then [Event.getFee amount «to» m] else []) ++
      [Event.createTx amount «to» (fund_fee c amount «to» m),
        Event.sendTx (fund_tx c amount «to» m)])

/-- The url `fund` POSTs the funding notification to:
`url.join(&format!("account/balance/\x7b\x7d", currency.get_type()))`. -/
def fund_notify_path (b : Bundlr) : String :=
  b.url ++ "account/balance/" ++ b.currency.get_type

/-- Method `Bundlr::fund` from `src/bundlr.rs`, step for step:
multiplier defaulted with `unwrap_or(1.0)`; deposit address looked up in
`pub_info.addresses` under the lowercased `get_type()` string, with
`.expect("Address should not be empty")` on a missing entry; fee from
`get_fee` if `needs_fee()`, else `Zero::zero()`; `create_tx`; `send_tx`
with `.expect("Error while sending transaction")` on a chain error;
`ConfirmationPoll::await_confirmation`; finally
`POST {url}account/balance/{get_type()}` with body `fund_notify_body`,
mapped to `true` by `check_and_return(..).map(|_| true)`.
The poller's outcomes follow the spec model `await_confirmation`: fuel
exhaustion is divergence (the spec's unbounded loop), a fatal chain error
is propagated. Returns the receiver, the event trace, and the outcome. -/
def Bundlr.fund (b : Bundlr) (amount : Nat) (multiplier : Option Rat)
    (fuel : Nat) : Bundlr × List Event × Outcome Bool :=
  let m := multiplier.getD 1
  let curr_str := lowercase_ascii b.currency.get_type
  match List.lookup curr_str b.pub_info.addresses with
  | none => (b, [Event.lookupAddress curr_str],
      .panic "Address should not be empty")
  | some «to» =>
    let tx := fund_tx b.currency amount «to» m
    let pre := fund_pre_events b.currency curr_str amount «to» m
    match b.currency.send_tx tx with
    | .error _ => (b, pre, .panic "Error while sending transaction")
    | .ok tx_res =>
      match await_confirmation tx_res.tx_id b.currency fuel 0 with
      | none => (b, pre, .diverge)
      | some (.error e) => (b, pre, .err (BundlrError.chain e))
      | some (.ok k) =>
        let path := fund_notify_path b
        let body := fund_notify_body tx_res.tx_id
        let events := pre ++
          [Event.confirmed tx_res.tx_id k, Event.notifyRelay path body]
        match b.client.post_balance path body with
        | .ok _ => (b, events, .ok true)
        | .error e => (b, events, .err e)

/-! ### Helper lemmas -/

theorem await_confirmation_ok {tx_id : String} {c : Currency} :
    ∀ {fuel i k : Nat},
      await_confirmation tx_id c fuel i = some (.ok k) →
      ∃ st, c.get_tx_status tx_id k = .ok st ∧
        c.min_confirmations ≤ st.confirmations := by
  intro fuel
  induction fuel with
  | zero => intro i k h; simp [await_confirmation] at h
  | succ fuel ih =>
    intro i k h
    unfold await_confirmation at h
    rcases hst : c.get_tx_status tx_id i with e | st
    · rcases e with _ | m
      · rw [hst] at h; exact ih h
      · rw [hst] at h; simp at h
    · rw [hst] at h
      dsimp only at h
      by_cases hc : c.min_confirmations ≤ st.confirmations
      · rw [if_pos hc] at h
        have hik : i = k := by simpa using h
        subst hik
        exact ⟨st, hst, hc⟩
      · rw [if_neg hc] at h
        exact ih h

theorem char_toNat_ofNat {n : Nat} (h : n < 55296) :
    (Char.ofNat n).toNat = n := by
  simp [Char.ofNat, Nat.isValidChar, h, Char.ofNatAux, Char.toNat,
    UInt32.toNat, Nat.toUInt32]

theorem toLowerAsciiChar_ne {c : Char} (h1 : 65 ≤ c.toNat)
    (h2 : c.toNat ≤ 90) : toLowerAsciiChar c ≠ c := by
  intro hEq
  have htoNat : (toLowerAsciiChar c).toNat = c.toNat + 32 := by
    unfold toLowerAsciiChar
    rw [if_pos ⟨h1, h2⟩]
    exact char_toNat_ofNat (by omega)
  rw [hEq] at htoNat
  omega

theorem map_eq_self {α : Type} {f : α → α} :
    ∀ {l : List α}, l.map f = l → ∀ c ∈ l, f c = c := by
  intro l
  induction l with
  | nil => intro _ c hc; cases hc
  | cons a t ih =>
    intro h c hc
    rw [List.map_cons, List.cons.injEq] at h
    rcases List.mem_cons.mp hc with hc | hc
    · exact hc ▸ h.1
    · exact ih h.2 c hc

theorem lowercase_ascii_ne {s : String}
    (h : ∃ c ∈ s.data, 65 ≤ c.toNat ∧ c.toNat ≤ 90) :
    lowercase_ascii s ≠ s := by
  obtain ⟨c, hmem, h1, h2⟩ := h
  intro hEq
  have hdata : s.data.map toLowerAsciiChar = s.data := by
    have := congrArg String.data hEq
    simpa [lowercase_ascii] using this
  exact toLowerAsciiChar_ne h1 h2 (map_eq_self hdata c hmem)

/-- The decimal digit character for `d < 10`. -/
def digitChar (d : Nat) : Char := Char.ofNat (48 + d)

/-- Little-endian base-10 digits, computed with explicit fuel so that the
kernel can evaluate it. -/
def natToDigitsRev : Nat → Nat → List Nat
  | 0, _ => []
  | fuel + 1, n => if n = 0 then [] else n % 10 :: natToDigitsRev fuel (n / 10)

theorem natToDigitsRev_eq : ∀ (fuel n : Nat), n ≤ fuel →
    natToDigitsRev fuel n = Nat.digits 10 n := by
  intro fuel
  induction fuel with
  | zero =>
    intro n h
    interval_cases n
    simp [natToDigitsRev]
  | succ fuel ih =>
    intro n h
    by_cases h0 : n = 0
    · subst h0; simp [natToDigitsRev]
    · have hdiv : n / 10 ≤ fuel := by
        have : n / 10 < n := Nat.div_lt_self (Nat.pos_of_ne_zero h0) (by norm_num)
        omega
      rw [natToDigitsRev, if_neg h0, ih (n / 10) hdiv,
        Nat.digits_def' (by norm_num : (1 : ℕ) < 10) (Nat.pos_of_ne_zero h0)]

/-- The canonical decimal rendering of a natural number, most significant
digit first. -/
def toDecimalString (n : Nat) : String :=
  if n = 0 then "0"
  else String.mk (((natToDigitsRev n n).reverse).map digitChar)

theorem digitChar_spec {d : Nat} (h : d < 10) :
    (digitChar d).isDigit = true ∧ (digitChar d).toNat = 48 + d := by
  interval_cases d <;> exact ⟨by decide, by decide⟩

theorem foldl_digitChar (l : List Nat) (hl : ∀ d ∈ l, d < 10) :
    ∀ a : Nat,
      (l.map digitChar).foldl (fun a c => 10 * a + (c.toNat - 48)) a =
        a * 10 ^ l.length + Nat.ofDigits 10 l.reverse := by
  induction l with
  | nil => intro a; simp [Nat.ofDigits_nil]
  | cons d t ih =>
    intro a
    have hd : d < 10 := hl d (List.mem_cons_self d t)
    have ht : ∀ x ∈ t, x < 10 := fun x hx => hl x (List.mem_cons_of_mem d hx)
    have hchar := (digitChar_spec hd).2
    simp only [List.map_cons, List.foldl_cons, hchar]
    rw [ih ht]
    have hrev : (d :: t).reverse = t.reverse ++ [d] := by simp
    rw [hrev, Nat.ofDigits_append, Nat.ofDigits_singleton]
    simp [List.length_reverse]
    ring

theorem biguint_from_str_toDecimalString (n : Nat) :
    biguint_from_str (toDecimalString n) = some n := by
  by_cases h0 : n = 0
  · subst h0; decide
  · unfold toDecimalString
    rw [if_neg h0, natToDigitsRev_eq n n le_rfl]
    have hdig : ∀ d ∈ Nat.digits 10 n, d < 10 := fun d hd =>
      Nat.digits_lt_base (by norm_num) hd
    have hdigrev : ∀ d ∈ (Nat.digits 10 n).reverse, d < 10 := fun d hd =>
      hdig d (List.mem_reverse.mp hd)
    have hne : Nat.digits 10 n ≠ [] :=
      Nat.digits_ne_nil_iff_ne_zero.mpr h0
    unfold biguint_from_str
    rw [if_pos ?pos]
    case pos =>
      constructor
      · simp [hne]
      · rw [List.all_eq_true]
        intro c hc
        simp only [String.data] at hc
        obtain ⟨d, hd, rfl⟩ := List.mem_map.mp hc
        exact (digitChar_spec (hdigrev d hd)).1
    · congr 1
      show (((Nat.digits 10 n).reverse).map digitChar).foldl
        (fun a c => 10 * a + (c.toNat - 48)) 0 = n
      rw [foldl_digitChar _ hdigrev 0]
      simp [Nat.ofDigits_digits]



theorem notifyRelay_not_mem_pre {c : Currency} {key : String} {amount : Nat}
    {«to» : String} {m : Rat} {p body : String} :
    Event.notifyRelay p body ∉ fund_pre_events c key amount «to» m := by
  unfold fund_pre_events
  by_cases h : c.needs_fee <;> simp [h]

/-- Complete case analysis of `Bundlr.fund`: exactly one of the five branches
of the workflow happens, and in each the returned client, trace and outcome
are as written in the source. -/
theorem fund_cases (b : Bundlr) (amount : Nat) (multiplier : Option Rat)
    (fuel : Nat) :
    (List.lookup (lowercase_ascii b.currency.get_type) b.pub_info.addresses
        = none ∧
      b.fund amount multiplier fuel =
        (b, [Event.lookupAddress (lowercase_ascii b.currency.get_type)],
          .panic "Address should not be empty")) ∨
    ∃ «to», List.lookup (lowercase_ascii b.currency.get_type)
        b.pub_info.addresses = some «to» ∧
      ((∃ e, b.currency.send_tx
            (fund_tx b.currency amount «to» (multiplier.getD 1)) = .error e ∧
          b.fund amount multiplier fuel =
            (b, fund_pre_events b.currency
                (lowercase_ascii b.currency.get_type) amount «to»
                (multiplier.getD 1),
              .panic "Error while sending transaction")) ∨
        ∃ tx_res, b.currency.send_tx
            (fund_tx b.currency amount «to» (multiplier.getD 1))
              = .ok tx_res ∧
          ((await_confirmation tx_res.tx_id b.currency fuel 0 = none ∧
              b.fund amount multiplier fuel =
                (b, fund_pre_events b.currency
                    (lowercase_ascii b.currency.get_type) amount «to»
                    (multiplier.getD 1),
                  .diverge)) ∨
            (∃ e, await_confirmation tx_res.tx_id b.currency fuel 0
                  = some (.error e) ∧
                b.fund amount multiplier fuel =
                  (b, fund_pre_events b.currency
                      (lowercase_ascii b.currency.get_type) amount «to»
                      (multiplier.getD 1),
                    .err (BundlrError.chain e))) ∨
            ∃ k, await_confirmation tx_res.tx_id b.currency fuel 0
                  = some (.ok k) ∧
              ((∃ r, b.client.post_balance (fund_notify_path b)
                      (fund_notify_body tx_res.tx_id) = .ok r ∧
                  b.fund amount multiplier fuel =
                    (b, fund_pre_events b.currency
                        (lowercase_ascii b.currency.get_type) amount «to»
                        (multiplier.getD 1) ++
                      [Event.confirmed tx_res.tx_id k,
                        Event.notifyRelay (fund_notify_path b)
                          (fund_notify_body tx_res.tx_id)],
                      .ok true)) ∨
                ∃ e, b.client.post_balance (fund_notify_path b)
                      (fund_notify_body tx_res.tx_id) = .error e ∧
                  b.fund amount multiplier fuel =
                    (b, fund_pre_events b.currency
                        (lowercase_ascii b.currency.get_type) amount «to»
                        (multiplier.getD 1) ++
                      [Event.confirmed tx_res.tx_id k,
                        Event.notifyRelay (fund_notify_path b)
                          (fund_notify_body tx_res.tx_id)],
                      .err e)))) := by
  rcases hlook : List.lookup (lowercase_ascii b.currency.get_type)
      b.pub_info.addresses with _ | «to»
  · left
    exact ⟨rfl, by simp only [Bundlr.fund, hlook]⟩
  · right
    refine ⟨«to», rfl, ?_⟩
    rcases hsend : b.currency.send_tx
        (fund_tx b.currency amount «to» (multiplier.getD 1)) with e | tx_res
    · left
      exact ⟨e, rfl, by simp only [Bundlr.fund, hlook, hsend]⟩
    · right
      refine ⟨tx_res, rfl, ?_⟩
      rcases hpoll : await_confirmation tx_res.tx_id b.currency fuel 0 with
        _ | res
      · left
        exact ⟨rfl, by simp only [Bundlr.fund, hlook, hsend, hpoll]⟩
      · rcases res with e | k
        · right; left
          exact ⟨e, rfl, by simp only [Bundlr.fund, hlook, hsend, hpoll]⟩
        · right; right
          refine ⟨k, rfl, ?_⟩
          rcases hpost : b.client.post_balance (fund_notify_path b)
              (fund_notify_body tx_res.tx_id) with e | r
          · right
            exact ⟨e, rfl, by
              simp only [Bundlr.fund, hlook, hsend, hpoll, hpost]⟩
          · left
            exact ⟨r, rfl, by
              simp only [Bundlr.fund, hlook, hsend, hpoll, hpost]⟩


/-! ### Concrete fixtures for witnesses and counterexamples -/

/-- Relay metadata as in the repository's own test
(`should_fetch_balance_correctly`). -/
def samplePubInfo : PubInfo :=
  { version := "0", gateway := "gateway", addresses := [("arweave", "address")] }

/-- A well-behaved backend: type `"arweave"`, no fee, echoing send, and a
status sequence 0, 0, 2, 2, … against a required confirmation count of 2. -/
def sampleCurrency : Currency :=
  { get_type := "arweave"
    needs_fee := false
    get_fee := fun amount _ _ => amount
    create_tx := fun _ «to» _ => { tx_id := "ftx-" ++ «to» }
    send_tx := fun tx => .ok tx
    get_tx_status := fun _ i =>
      .ok { confirmations := if 2 ≤ i then 2 else 0, height := i,
            block_hash := "h" }
    get_signer := fun bs => bs
    min_confirmations := 2 }

/-- An all-success HTTP world whose balance endpoint answers `"10"`, as in
the repository's own balance test. -/
def sampleClient : HttpClient :=
  { get_info := fun _ => .ok samplePubInfo
    get_balance_resp := fun _ _ => .ok { balance := "10" }
    post_tx := fun _ _ => .ok "\x7b\x7d"
    post_balance := fun _ _ => .ok "ok" }

def sampleBundlr : Bundlr :=
  { url := "https://node/", currency := sampleCurrency,
    client := sampleClient, pub_info := samplePubInfo }

/-- Backend whose chain rejects the funding transaction. -/
def rejectingCurrency : Currency :=
  { sampleCurrency with send_tx := fun _ => .error (.fatal "rejected") }

def rejectingBundlr : Bundlr :=
  { sampleBundlr with currency := rejectingCurrency }

/-- HTTP world whose balance endpoint answers a non-numeric string. -/
def badBalanceClient : HttpClient :=
  { sampleClient with get_balance_resp := fun _ _ => .ok { balance := "abc" } }

def badBalanceBundlr : Bundlr :=
  { sampleBundlr with client := badBalanceClient }

/-- HTTP world whose info endpoint is unreachable. -/
def downInfoClient : HttpClient :=
  { sampleClient with get_info := fun _ => .error (.relay "connection refused") }

/-! ### C2 -/

/-- C2, refuted as stated: with a backend whose `send_tx` returns a chain
error, `fund` does not return a typed error — it panics (the source's
`.expect("Error while sending transaction")`). Concrete run. -/
theorem fund_send_tx_error_panics_cex :
    (rejectingBundlr.fund 5 none 3).2.2 =
      Outcome.panic "Error while sending transaction" := by
  decide

/-- C2 amended: in every execution of `fund` in which the address lookup
succeeds and the backend's `send_tx` returns a chain error, `fund` panics
with message "Error while sending transaction" instead of propagating a
typed error result. -/
theorem fund_send_tx_error_panics (b : Bundlr) (amount : Nat)
    (multiplier : Option Rat) (fuel : Nat) («to» : String) (e : ChainError)
    (hlook : List.lookup (lowercase_ascii b.currency.get_type)
      b.pub_info.addresses = some «to»)
    (hsend : b.currency.send_tx
      (fund_tx b.currency amount «to» (multiplier.getD 1)) = .error e) :
    (b.fund amount multiplier fuel).2.2 =
      Outcome.panic "Error while sending transaction" := by
  rcases fund_cases b amount multiplier fuel with ⟨h, _⟩ | ⟨to2, h2, hrest⟩
  · rw [h] at hlook; cases hlook
  · have hto : to2 = «to» := by rw [h2] at hlook; injection hlook
    subst hto
    rcases hrest with ⟨e2, _, heq⟩ | ⟨tx_res, hok, _⟩
    · rw [heq]
    · rw [hok] at hsend; cases hsend

/-- Witness for the amended C2 at a concrete input. -/
theorem fund_send_tx_error_panics_witness :
    List.lookup (lowercase_ascii rejectingBundlr.currency.get_type)
        rejectingBundlr.pub_info.addresses = some "address" ∧
    rejectingBundlr.currency.send_tx
        (fund_tx rejectingBundlr.currency 5 "address" ((none : Option Rat).getD 1))
      = .error (.fatal "rejected") ∧
    (rejectingBundlr.fund 5 none 3).2.2 =
      Outcome.panic "Error while sending transaction" :=
  ⟨by decide, by rfl, fund_send_tx_error_panics rejectingBundlr 5 none 3
    "address" (.fatal "rejected") (by decide) (by rfl)⟩

/-! ### C3 -/

/-- C3, refuted as stated: when the relay's balance field is not a valid
non-negative decimal integer string, `get_balance` does not return an error
— it panics (the source's
`BigUint::from_str(&d.balance).expect("Error converting from u128 to BigUint")`).
Concrete run with balance `"abc"`. -/
theorem get_balance_bad_string_panics_cex :
    (badBalanceBundlr.get_balance "address").2 =
      Outcome.panic "Error converting from u128 to BigUint" := by
  decide

/-- C3 amended: whenever the relay's balance response carries a string that
`BigUint::from_str` rejects, `get_balance` panics with message
"Error converting from u128 to BigUint" instead of returning an error. -/
theorem get_balance_bad_string_panics (b : Bundlr) (address : String)
    (d : BalanceResData)
    (hresp : b.client.get_balance_resp
      (b.url ++ "account/balance/" ++ b.currency.get_type) address = .ok d)
    (hbad : biguint_from_str d.balance = none) :
    (b.get_balance address).2 =
      Outcome.panic "Error converting from u128 to BigUint" := by
  simp [Bundlr.get_balance, Bundlr.get_balance_public, hresp, hbad]

/-- Witness for the amended C3 at a concrete input. -/
theorem get_balance_bad_string_panics_witness :
    badBalanceBundlr.client.get_balance_resp
        (badBalanceBundlr.url ++ "account/balance/" ++
          badBalanceBundlr.currency.get_type) "address"
      = .ok { balance := "abc" } ∧
    biguint_from_str "abc" = none ∧
    (badBalanceBundlr.get_balance "address").2 =
      Outcome.panic "Error converting from u128 to BigUint" :=
  ⟨by rfl, by decide,
    get_balance_bad_string_panics badBalanceBundlr "address"
      { balance := "abc" } (by rfl) (by decide)⟩

/-! ### C4 -/

/-- C4: for every natural number `n`, `get_balance` against a relay whose
balance endpoint answers the decimal rendering of `n` returns exactly `n`:
decimal balance strings round-trip without loss. -/
theorem get_balance_roundtrip (b : Bundlr) (address : String) (n : Nat)
    (hresp : b.client.get_balance_resp
      (b.url ++ "account/balance/" ++ b.currency.get_type) address
      = .ok { balance := toDecimalString n }) :
    (b.get_balance address).2 = Outcome.ok n := by
  simp [Bundlr.get_balance, Bundlr.get_balance_public, hresp,
    biguint_from_str_toDecimalString]

/-- Witness for C4: the spec's own scenario, balance `"10"` parsing to 10. -/
theorem get_balance_roundtrip_witness :
    sampleBundlr.client.get_balance_resp
        (sampleBundlr.url ++ "account/balance/" ++
          sampleBundlr.currency.get_type) "address"
      = .ok { balance := toDecimalString 10 } ∧
    (sampleBundlr.get_balance "address").2 = Outcome.ok 10 :=
  ⟨by rfl,
    get_balance_roundtrip sampleBundlr "address" 10 (by rfl)⟩


/-! ### A small JSON validator (RFC 8259 value grammar), used to check the
body `fund` sends to the relay. -/

/-- Consume the expected literal characters from the input. -/
def expectChars : List Char → List Char → Option (List Char)
  | [], input => some input
  | c :: cs, d :: ds => if c = d then expectChars cs ds else none
  | _ :: _, [] => none

/-- Drop JSON insignificant whitespace. -/
def skipJsonWs : List Char → List Char
  | c :: cs =>
    if c = ' ' ∨ c = '\n' ∨ c = '\t' ∨ c = '\r' then skipJsonWs cs
    else c :: cs
  | [] => []

/-- Consume the remainder of a JSON string after its opening quote. Escape
sequences are accepted leniently (any escaped character); unescaped control
characters are rejected. -/
def jsonStringRest : Nat → List Char → Option (List Char)
  | 0, _ => none
  | _ + 1, [] => none
  | fuel + 1, c :: cs =>
    if c = '"' then some cs
    else if c = '\\' then
      match cs with
      | [] => none
      | _ :: ds => jsonStringRest fuel ds
    else if c.toNat < 32 then none
    else jsonStringRest fuel cs

/-- Drop a run of decimal digits. -/
def dropDigits : List Char → List Char
  | c :: cs => if c.isDigit then dropDigits cs else c :: cs
  | [] => []

/-- Consume a JSON number starting at a digit (a leading minus sign has
already been consumed by the caller): integer part, optional fraction,
optional exponent. -/
def jsonNumberRest (input : List Char) : Option (List Char) :=
  match input with
  | [] => none
  | c :: cs =>
    if ¬ c.isDigit then none
    else
      let afterInt := dropDigits cs
      let afterFrac : Option (List Char) :=
        match afterInt with
        | '.' :: ds =>
          match ds with
          | d :: _ => if d.isDigit then some (dropDigits ds) else none
          | [] => none
        | _ => some afterInt
      match afterFrac with
      | none => none
      | some r =>
        match r with
        | e :: es =>
          if e = 'e' ∨ e = 'E' then
            let es2 :=
              match es with
              | sgn :: ss => if sgn = '+' ∨ sgn = '-' then ss else es
              | [] => es
            match es2 with
            | d :: _ => if d.isDigit then some (dropDigits es2) else none
            | [] => none
          else some r
        | [] => some r

mutual

/-- Consume one JSON value; `none` on malformed input. Fuel bounds the
nesting depth. -/
def jsonValueRest : Nat → List Char → Option (List Char)
  | 0, _ => none
  | fuel + 1, input =>
    match skipJsonWs input with
    | [] => none
    | c :: cs =>
      if c = '"' then jsonStringRest (cs.length + 1) cs
      else if c = Char.ofNat 123 then jsonObjectBody fuel (skipJsonWs cs)
      else if c = '[' then jsonArrayBody fuel (skipJsonWs cs)
      else if c = 't' then expectChars ['r', 'u', 'e'] cs
      else if c = 'f' then expectChars ['a', 'l', 's', 'e'] cs
      else if c = 'n' then expectChars ['u', 'l', 'l'] cs
      else if c = '-' then jsonNumberRest cs
      else if c.isDigit then jsonNumberRest (c :: cs)
      else none

/-- Consume an object's members and closing brace (the opening brace and
leading whitespace are already consumed). -/
def jsonObjectBody : Nat → List Char → Option (List Char)
  | 0, _ => none
  | fuel + 1, input =>
    match input with
    | [] => none
    | c :: cs =>
      if c = Char.ofNat 125 then some cs
      else if c = '"' then
        match jsonStringRest (cs.length + 1) cs with
        | none => none
        | some afterKey =>
          match skipJsonWs afterKey with
          | ':' :: afterColon =>
            match jsonValueRest fuel afterColon with
            | none => none
            | some afterVal =>
              match skipJsonWs afterVal with
              | ',' :: afterComma => jsonObjectBody fuel (skipJsonWs afterComma)
              | d :: ds => if d = Char.ofNat 125 then some ds else none
              | [] => none
          | _ => none
      else none

/-- Consume an array's elements and closing bracket (the opening bracket and
leading whitespace are already consumed). -/
def jsonArrayBody : Nat → List Char → Option (List Char)
  | 0, _ => none
  | fuel + 1, input =>
    match input with
    | [] => none
    | c :: cs =>
      if c = ']' then some cs
      else
        match jsonValueRest fuel (c :: cs) with
        | none => none
        | some afterVal =>
          match skipJsonWs afterVal with
          | ',' :: afterComma => jsonArrayBody fuel (skipJsonWs afterComma)
          | d :: ds => if d = ']' then some ds else none
          | [] => none

end

/-- A string is a valid JSON document when one JSON value, possibly
surrounded by whitespace, spans it exactly. -/
def isValidJson (s : String) : Bool :=
  match jsonValueRest (2 * s.length + 4) s.data with
  | some rest => (skipJsonWs rest).isEmpty
  | none => false


/-! ### C5 -/

/-- Backend identical to `sampleCurrency` but whose funding transaction gets
the (typical, non-numeric) id `"abc"`. -/
def abcTxCurrency : Currency :=
  { sampleCurrency with create_tx := fun _ _ _ => { tx_id := "abc" } }

def abcTxBundlr : Bundlr :=
  { sampleBundlr with currency := abcTxCurrency }

/-- C5 is a code bug: the relay-notify body `fund` builds interpolates the
transaction id without quotes, so for an ordinary (non-numeric) id the body
is not a valid JSON document — while serializing the crate's own (unused)
`FundBody` struct would have produced valid JSON carrying the id under
`"tx_id"`. Shown on a concrete run whose funding transaction id is `"abc"`:
the notify step's body is exactly `\x7b"tx_id":abc\x7d`, which the JSON
grammar rejects. -/
theorem fund_notify_body_not_json :
    Event.notifyRelay (fund_notify_path abcTxBundlr) (fund_notify_body "abc")
        ∈ (abcTxBundlr.fund 5 none 3).2.1 ∧
    fund_notify_body "abc" = "\x7b\"tx_id\":abc\x7d" ∧
    isValidJson (fund_notify_body "abc") = false ∧
    isValidJson (FundBody.serialize { tx_id := "abc" }) = true ∧
    fund_notify_body "abc" ≠ FundBody.serialize { tx_id := "abc" } :=
  ⟨by decide, by decide, by decide, by decide, by decide⟩

/-! ### C6 -/

theorem createTx_mem_pre {c : Currency} {key : String} {amount : Nat}
    {«to» : String} {m : Rat} :
    Event.createTx amount «to» (fund_fee c amount «to» m)
      ∈ fund_pre_events c key amount «to» m := by
  unfold fund_pre_events
  by_cases h : c.needs_fee <;> simp [h]

theorem sendTx_mem_pre {c : Currency} {key : String} {amount : Nat}
    {«to» : String} {m : Rat} :
    Event.sendTx (fund_tx c amount «to» m)
      ∈ fund_pre_events c key amount «to» m := by
  unfold fund_pre_events
  by_cases h : c.needs_fee <;> simp [h]

/-- When the address lookup succeeds, `fund`'s trace always extends the
shared leading segment `fund_pre_events` (possibly by the
confirm/notify events). -/
theorem fund_trace_extends_pre (b : Bundlr) (amount : Nat)
    (multiplier : Option Rat) (fuel : Nat) («to» : String)
    (hlook : List.lookup (lowercase_ascii b.currency.get_type)
      b.pub_info.addresses = some «to») :
    ∃ suffix, (b.fund amount multiplier fuel).2.1 =
      fund_pre_events b.currency (lowercase_ascii b.currency.get_type)
          amount «to» (multiplier.getD 1) ++ suffix := by
  rcases fund_cases b amount multiplier fuel with ⟨h, _⟩ | ⟨to2, h2, hrest⟩
  · rw [h] at hlook; cases hlook
  · have hto : to2 = «to» := by rw [h2] at hlook; injection hlook
    subst hto
    rcases hrest with ⟨e, _, heq⟩ | ⟨tx_res, _, hrest⟩
    · exact ⟨[], by rw [heq]; simp⟩
    · rcases hrest with ⟨_, heq⟩ | ⟨e, _, heq⟩ | ⟨k, _, hrest⟩
      · exact ⟨[], by rw [heq]; simp⟩
      · exact ⟨[], by rw [heq]; simp⟩
      · rcases hrest with ⟨r, _, heq⟩ | ⟨e, _, heq⟩
        · exact ⟨[Event.confirmed tx_res.tx_id k,
            Event.notifyRelay (fund_notify_path b)
              (fund_notify_body tx_res.tx_id)], by rw [heq]⟩
        · exact ⟨[Event.confirmed tx_res.tx_id k,
            Event.notifyRelay (fund_notify_path b)
              (fund_notify_body tx_res.tx_id)], by rw [heq]⟩

/-- C6: when the address lookup succeeds, the fee `fund` passes to
`create_tx` is `0` if `needs_fee()` is `false` and
`get_fee(amount, to, multiplier)` if it is `true`, with the multiplier
defaulting to `1.0` when the caller passes `None`; in both cases the
workflow still reaches `create_tx` and `send_tx`. -/
theorem fund_fee_zero_or_get_fee (b : Bundlr) (amount : Nat)
    (multiplier : Option Rat) (fuel : Nat) («to» : String)
    (hlook : List.lookup (lowercase_ascii b.currency.get_type)
      b.pub_info.addresses = some «to») :
    (b.currency.needs_fee = false →
        Event.createTx amount «to» 0 ∈ (b.fund amount multiplier fuel).2.1) ∧
    (b.currency.needs_fee = true →
        Event.createTx amount «to»
            (b.currency.get_fee amount «to» (multiplier.getD 1))
          ∈ (b.fund amount multiplier fuel).2.1) ∧
    Event.sendTx (fund_tx b.currency amount «to» (multiplier.getD 1))
      ∈ (b.fund amount multiplier fuel).2.1 := by
  obtain ⟨suffix, htr⟩ :=
    fund_trace_extends_pre b amount multiplier fuel «to» hlook
  rw [htr]
  refine ⟨fun hf => ?_, fun hf => ?_, ?_⟩
  · have : fund_fee b.currency amount «to» (multiplier.getD 1) = 0 := by
      simp [fund_fee, hf]
    exact List.mem_append_left _ (this ▸ createTx_mem_pre)
  · have : fund_fee b.currency amount «to» (multiplier.getD 1) =
        b.currency.get_fee amount «to» (multiplier.getD 1) := by
      simp [fund_fee, hf]
    exact List.mem_append_left _ (this ▸ createTx_mem_pre)
  · exact List.mem_append_left _ sendTx_mem_pre

/-- Witness for C6 on the no-fee backend: the zero-fee `create_tx` event and
the `send_tx` event both appear in the trace. -/
theorem fund_fee_zero_or_get_fee_witness :
    List.lookup (lowercase_ascii sampleBundlr.currency.get_type)
        sampleBundlr.pub_info.addresses = some "address" ∧
    (sampleBundlr.currency.needs_fee = false →
        Event.createTx 5 "address" 0 ∈ (sampleBundlr.fund 5 none 3).2.1) ∧
    (sampleBundlr.currency.needs_fee = true →
        Event.createTx 5 "address"
            (sampleBundlr.currency.get_fee 5 "address"
              ((none : Option Rat).getD 1))
          ∈ (sampleBundlr.fund 5 none 3).2.1) ∧
    Event.sendTx (fund_tx sampleBundlr.currency 5 "address"
        ((none : Option Rat).getD 1))
      ∈ (sampleBundlr.fund 5 none 3).2.1 :=
  ⟨by decide,
    fund_fee_zero_or_get_fee sampleBundlr 5 none 3 "address" (by decide)⟩

/-! ### C7 -/

/-- C7: `fund` returns `Ok(true)` exactly when the relay-notify POST was
issued and acknowledged (`check_and_return` succeeded on its response), and
`fund` can never return `Ok(false)`. -/
theorem fund_ok_true_iff_ack (b : Bundlr) (amount : Nat)
    (multiplier : Option Rat) (fuel : Nat) :
    ((b.fund amount multiplier fuel).2.2 = Outcome.ok true ↔
      ∃ p body r,
        Event.notifyRelay p body ∈ (b.fund amount multiplier fuel).2.1 ∧
          b.client.post_balance p body = .ok r) ∧
    (b.fund amount multiplier fuel).2.2 ≠ Outcome.ok false := by
  rcases fund_cases b amount multiplier fuel with ⟨_, heq⟩ | ⟨to2, _, hrest⟩
  · rw [heq]
    refine ⟨⟨fun h => (by cases h), fun ⟨p, body, r, hmem, _⟩ => ?_⟩,
      (by simp)⟩
    simp at hmem
  · rcases hrest with ⟨e, _, heq⟩ | ⟨tx_res, _, hrest⟩
    · rw [heq]
      refine ⟨⟨fun h => (by cases h), fun ⟨p, body, r, hmem, _⟩ =>
        absurd hmem notifyRelay_not_mem_pre⟩, (by simp)⟩
    · rcases hrest with ⟨_, heq⟩ | ⟨e, _, heq⟩ | ⟨k, _, hrest⟩
      · rw [heq]
        refine ⟨⟨fun h => (by cases h), fun ⟨p, body, r, hmem, _⟩ =>
          absurd hmem notifyRelay_not_mem_pre⟩, (by simp)⟩
      · rw [heq]
        refine ⟨⟨fun h => (by cases h), fun ⟨p, body, r, hmem, _⟩ =>
          absurd hmem notifyRelay_not_mem_pre⟩, (by simp)⟩
      · rcases hrest with ⟨r, hpost, heq⟩ | ⟨e, hpost, heq⟩
        · rw [heq]
          refine ⟨⟨fun _ => ?_, fun _ => rfl⟩, (by simp)⟩
          exact ⟨fund_notify_path b, fund_notify_body tx_res.tx_id, r,
            (by simp), hpost⟩
        · rw [heq]
          refine ⟨⟨fun h => (by cases h), fun ⟨p, body, r, hmem, hpb⟩ => ?_⟩,
            (by simp)⟩
          rcases List.mem_append.mp hmem with hmem | hmem
          · exact absurd hmem notifyRelay_not_mem_pre
          · have hp : p = fund_notify_path b ∧
                body = fund_notify_body tx_res.tx_id := by
              simpa using hmem
            rw [hp.1, hp.2, hpost] at hpb
            cases hpb


/-! ### C1 -/

/-- C1: whenever `fund`'s trace contains the relay-notify POST, that POST is
the final event, immediately preceded by the confirmation poller's return,
and the poller returned success at a poll attempt whose reported status had
reached the backend's required confirmation threshold — the relay is never
notified before the funding transaction is confirmed. -/
theorem fund_notify_only_after_confirmation (b : Bundlr) (amount : Nat)
    (multiplier : Option Rat) (fuel : Nat) (p body : String)
    (hmem : Event.notifyRelay p body ∈ (b.fund amount multiplier fuel).2.1) :
    ∃ l tid k st,
      (b.fund amount multiplier fuel).2.1 =
        l ++ [Event.confirmed tid k, Event.notifyRelay p body] ∧
      await_confirmation tid b.currency fuel 0 = some (.ok k) ∧
      b.currency.get_tx_status tid k = .ok st ∧
      b.currency.min_confirmations ≤ st.confirmations := by
  rcases fund_cases b amount multiplier fuel with ⟨_, heq⟩ | ⟨to2, _, hrest⟩
  · rw [heq] at hmem; simp at hmem
  · rcases hrest with ⟨e, _, heq⟩ | ⟨tx_res, _, hrest⟩
    · rw [heq] at hmem; exact absurd hmem notifyRelay_not_mem_pre
    · rcases hrest with ⟨_, heq⟩ | ⟨e, _, heq⟩ | ⟨k, hpoll, hrest⟩
      · rw [heq] at hmem; exact absurd hmem notifyRelay_not_mem_pre
      · rw [heq] at hmem; exact absurd hmem notifyRelay_not_mem_pre
      · obtain ⟨st, hst, hthr⟩ := await_confirmation_ok hpoll
        have hfinish : ∀ out : Outcome Bool,
            b.fund amount multiplier fuel =
              (b, fund_pre_events b.currency
                  (lowercase_ascii b.currency.get_type) amount to2
                  (multiplier.getD 1) ++
                [Event.confirmed tx_res.tx_id k,
                  Event.notifyRelay (fund_notify_path b)
                    (fund_notify_body tx_res.tx_id)], out) →
            ∃ l tid k2 st2,
              (b.fund amount multiplier fuel).2.1 =
                l ++ [Event.confirmed tid k2, Event.notifyRelay p body] ∧
              await_confirmation tid b.currency fuel 0 = some (.ok k2) ∧
              b.currency.get_tx_status tid k2 = .ok st2 ∧
              b.currency.min_confirmations ≤ st2.confirmations := by
          intro out heq
          rw [heq] at hmem ⊢
          have hp : p = fund_notify_path b ∧
              body = fund_notify_body tx_res.tx_id := by
            rcases List.mem_append.mp hmem with h | h
            · exact absurd h notifyRelay_not_mem_pre
            · simpa using h
          exact ⟨fund_pre_events b.currency
              (lowercase_ascii b.currency.get_type) amount to2
              (multiplier.getD 1), tx_res.tx_id, k, st,
            by rw [hp.1, hp.2], hpoll, hst, hthr⟩
        rcases hrest with ⟨r, _, heq⟩ | ⟨e, _, heq⟩
        · exact hfinish _ heq
        · exact hfinish _ heq

/-- Witness for C1 on a concrete full run of `fund`. -/
theorem fund_notify_only_after_confirmation_witness :
    (Event.notifyRelay (fund_notify_path sampleBundlr)
        (fund_notify_body "ftx-address")
      ∈ (sampleBundlr.fund 5 none 3).2.1) ∧
    ∃ l tid k,
      (sampleBundlr.fund 5 none 3).2.1 =
        l ++ [Event.confirmed tid k,
          Event.notifyRelay (fund_notify_path sampleBundlr)
            (fund_notify_body "ftx-address")] ∧
      await_confirmation tid sampleBundlr.currency 3 0 = some (.ok k) ∧
      sampleBundlr.currency.get_tx_status tid k = .ok
        ({ confirmations := 2, height := 2, block_hash := "h" } : TxStatus) ∧
      sampleBundlr.currency.min_confirmations ≤ 2 := by
  refine ⟨(by decide), ?_⟩
  obtain ⟨l, tid, k, st, h1, h2, h3, h4⟩ :=
    fund_notify_only_after_confirmation sampleBundlr 5 none 3
      (fund_notify_path sampleBundlr) (fund_notify_body "ftx-address")
      (by decide)
  refine ⟨l, tid, k, h1, h2, ?_⟩
  have hk : k = 2 := by
    have h2e : (some (Except.ok k) : Option (Except ChainError Nat)) =
        some (Except.ok 2) := h2.symm.trans (by rfl)
    simpa using h2e
  subst hk
  have hst : st = ({ confirmations := 2, height := 2, block_hash := "h" } : TxStatus) := by
    have h3e : (Except.ok st : Except ChainError TxStatus) =
        .ok ({ confirmations := 2, height := 2, block_hash := "h" } : TxStatus) :=
      h3.symm.trans (by rfl)
    injection h3e
  rw [hst] at h3 h4
  exact ⟨h3, by simpa using h4⟩

/-! ### C8 -/

/-- C8: construction issues exactly one info fetch; if the fetch fails the
constructor aborts with a panic (no client value, no retry); if it succeeds,
the client holds exactly the fetched `PubInfo`. -/
theorem new_fetches_once_and_fails_fatally (client : HttpClient)
    (url : String) (currency : Currency) :
    (Bundlr.new client url currency).1 = [Event.fetchInfo] ∧
    (∀ e, Bundlr.get_pub_info client url = .error e →
      (Bundlr.new client url currency).2 =
        Outcome.panic ("Could not fetch public info from url: " ++ url)) ∧
    (∀ pi, Bundlr.get_pub_info client url = .ok pi →
      (Bundlr.new client url currency).2 =
        Outcome.ok (Bundlr.mk url currency client pi)) := by
  refine ⟨rfl, fun e he => ?_, fun pi hpi => ?_⟩
  · simp [Bundlr.new, he]
  · simp [Bundlr.new, hpi]

/-- Witness for C8 against an unreachable info endpoint. -/
theorem new_fetches_once_and_fails_fatally_witness :
    (Bundlr.new downInfoClient "https://node/" sampleCurrency).1 =
      [Event.fetchInfo] ∧
    Bundlr.get_pub_info downInfoClient "https://node/" =
      .error (.relay "connection refused") ∧
    (Bundlr.new downInfoClient "https://node/" sampleCurrency).2 =
      Outcome.panic
        ("Could not fetch public info from url: " ++ "https://node/") :=
  ⟨(new_fetches_once_and_fails_fatally downInfoClient "https://node/"
      sampleCurrency).1,
    (by rfl),
    (new_fetches_once_and_fails_fatally downInfoClient "https://node/"
      sampleCurrency).2.1 (.relay "connection refused") (by rfl)⟩

/-! ### C9 -/

/-- C9: every operation on a constructed client returns the client — in
particular its `pub_info`, `url` and `currency` — unchanged; `pub_info`
is only ever set by `Bundlr.new`. -/
theorem operations_preserve_client (b : Bundlr) (data : List Nat)
    (tags : List Tag) (tx : BundlrTx) (address : String) (amount : Nat)
    (multiplier : Option Rat) (fuel : Nat) :
    (b.create_transaction_with_tags data tags).1 = b ∧
    (b.send_transaction tx).1 = b ∧
    (b.get_balance address).1 = b ∧
    (b.fund amount multiplier fuel).1 = b := by
  refine ⟨rfl, rfl, rfl, ?_⟩
  rcases fund_cases b amount multiplier fuel with ⟨_, heq⟩ | ⟨to2, _, hrest⟩
  · rw [heq]
  · rcases hrest with ⟨e, _, heq⟩ | ⟨tx_res, _, hrest⟩
    · rw [heq]
    · rcases hrest with ⟨_, heq⟩ | ⟨e, _, heq⟩ | ⟨k, _, hrest⟩
      · rw [heq]
      · rw [heq]
      · rcases hrest with ⟨r, _, heq⟩ | ⟨e, _, heq⟩ <;> rw [heq]


/-! ### C10 -/

/-- Backend whose chain-type string contains an ASCII uppercase letter. -/
def upperCurrency : Currency :=
  { sampleCurrency with get_type := "Arweave" }

def upperBundlr : Bundlr :=
  { sampleBundlr with currency := upperCurrency }

/-- C10: `fund` keys the deposit-address lookup by the lowercased
`get_type()` string (the first event of every `fund` trace), while the urls
of the relay-notify POST, of `send_transaction` and of the balance query
embed `get_type()` verbatim; hence for a backend whose type string contains
an ASCII uppercase letter the address-book key and the url path segment
differ. -/
theorem fund_key_lowercased_urls_verbatim (b : Bundlr) (amount : Nat)
    (multiplier : Option Rat) (fuel : Nat) (tx : BundlrTx)
    (p body address : String) :
    ((b.fund amount multiplier fuel).2.1.head? =
        some (Event.lookupAddress (lowercase_ascii b.currency.get_type))) ∧
    (Event.notifyRelay p body ∈ (b.fund amount multiplier fuel).2.1 →
        p = b.url ++ "account/balance/" ++ b.currency.get_type) ∧
    ((b.send_transaction tx).2 =
        b.client.post_tx (b.url ++ "tx/" ++ b.currency.get_type)
          tx.into_inner) ∧
    (∀ client2 : HttpClient,
        client2.get_balance_resp
            (b.url ++ "account/balance/" ++ b.currency.get_type) =
          b.client.get_balance_resp
            (b.url ++ "account/balance/" ++ b.currency.get_type) →
        Bundlr.get_balance_public client2 b.url b.currency address =
          (b.get_balance address).2) ∧
    ((∃ c ∈ (b.currency.get_type).data, 65 ≤ c.toNat ∧ c.toNat ≤ 90) →
        lowercase_ascii b.currency.get_type ≠ b.currency.get_type) := by
  refine ⟨?_, ?_, rfl, ?_, fun h => lowercase_ascii_ne h⟩
  · rcases fund_cases b amount multiplier fuel with ⟨_, heq⟩ |
      ⟨to2, _, hrest⟩
    · rw [heq]; rfl
    · rcases hrest with ⟨e, _, heq⟩ | ⟨tx_res, _, hrest⟩
      · rw [heq]; simp [fund_pre_events]
      · rcases hrest with ⟨_, heq⟩ | ⟨e, _, heq⟩ | ⟨k, _, hrest⟩
        · rw [heq]; simp [fund_pre_events]
        · rw [heq]; simp [fund_pre_events]
        · rcases hrest with ⟨r, _, heq⟩ | ⟨e, _, heq⟩ <;>
            · rw [heq]; simp [fund_pre_events]
  · intro hmem
    rcases fund_cases b amount multiplier fuel with ⟨_, heq⟩ |
      ⟨to2, _, hrest⟩
    · rw [heq] at hmem; simp at hmem
    · rcases hrest with ⟨e, _, heq⟩ | ⟨tx_res, _, hrest⟩
      · rw [heq] at hmem; exact absurd hmem notifyRelay_not_mem_pre
      · rcases hrest with ⟨_, heq⟩ | ⟨e, _, heq⟩ | ⟨k, _, hrest⟩
        · rw [heq] at hmem; exact absurd hmem notifyRelay_not_mem_pre
        · rw [heq] at hmem; exact absurd hmem notifyRelay_not_mem_pre
        · have hpath : ∀ out : Outcome Bool,
              b.fund amount multiplier fuel =
                (b, fund_pre_events b.currency
                    (lowercase_ascii b.currency.get_type) amount to2
                    (multiplier.getD 1) ++
                  [Event.confirmed tx_res.tx_id k,
                    Event.notifyRelay (fund_notify_path b)
                      (fund_notify_body tx_res.tx_id)], out) →
              p = b.url ++ "account/balance/" ++ b.currency.get_type := by
            intro out heq
            rw [heq] at hmem
            rcases List.mem_append.mp hmem with h | h
            · exact absurd h notifyRelay_not_mem_pre
            · have : p = fund_notify_path b := by
                have := (by simpa using h :
                  p = fund_notify_path b ∧ body = fund_notify_body tx_res.tx_id)
                exact this.1
              rw [this]; rfl
          rcases hrest with ⟨r, _, heq⟩ | ⟨e, _, heq⟩
          · exact hpath _ heq
          · exact hpath _ heq
  · intro client2 hagree
    unfold Bundlr.get_balance Bundlr.get_balance_public
    rw [hagree]

/-- Witness for C10 on the uppercase-typed backend: the full `fund` run
notifies at the verbatim path `…account/balance/Arweave`, yet looks the
address up under `"arweave"`. -/
theorem fund_key_lowercased_urls_verbatim_witness :
    (Event.notifyRelay (fund_notify_path upperBundlr)
        (fund_notify_body "ftx-address")
      ∈ (upperBundlr.fund 5 none 3).2.1) ∧
    ((upperBundlr.fund 5 none 3).2.1.head? =
        some (Event.lookupAddress "arweave")) ∧
    fund_notify_path upperBundlr =
      upperBundlr.url ++ "account/balance/" ++
        upperBundlr.currency.get_type ∧
    lowercase_ascii upperBundlr.currency.get_type ≠
      upperBundlr.currency.get_type := by
  have T := fund_key_lowercased_urls_verbatim upperBundlr 5 none 3
    ⟨[], [], []⟩ (fund_notify_path upperBundlr)
    (fund_notify_body "ftx-address") "address"
  refine ⟨(by decide), ?_, T.2.1 (by decide), T.2.2.2.2 (by decide)⟩
  have h1 := T.1
  rw [show lowercase_ascii upperBundlr.currency.get_type = "arweave"
    from (by decide)] at h1
  exact h1

end WvmIrys
